import Mathlib

/-!
Verification development for the VideoBrake bitrate-classification core
(`src/bitv`).  The Python code is shallowly embedded: the tier calculator,
the metadata value objects, the statistics collector, the path arithmetic
used for destination resolution, and the two batch loops of the
classification engine become executable Lean definitions, and the
documented properties are proved about those definitions.

Modelling conventions, used throughout:
* Python floats are modelled as rationals (`ℚ`); all arithmetic the claims
  exercise is exact in both worlds.  `float('inf')` becomes `⊤ : WithTop ℚ`.
* Python `int` is `ℤ` (or `ℕ` where the source value is a size/count).
* An insertion-ordered Python `dict` is an association list; assignment
  `d[k] = v` is the `upsert` operation below.
* Filesystem paths handled as component lists (`FsPath`) stand for
  absolute, normalized POSIX paths; the `os.path` string functions that the
  claims exercise are modelled on that representation.
* Filesystem state is the list of existing file paths; the probe results of
  `cv2` and the walker output are parameters of the functions that consume
  them, since they are the only environment-dependent inputs.
-/

/-! ## Tier calculator (src/bitv/common_utils.py lines 240-281) -/

/-- Python `str.zfill`: pad with leading zeros up to `width`; a leading
sign character stays leftmost. -/
def zfill (s : String) (width : Nat) : String :=
  if width ≤ s.length then s
  else
    match s.data with
    | '-' :: rest => String.mk ('-' :: (List.replicate (width - s.length) '0' ++ rest))
    | '+' :: rest => String.mk ('+' :: (List.replicate (width - s.length) '0' ++ rest))
    | l => String.mk (List.replicate (width - s.length) '0' ++ l)

/-- Python `dict` assignment `d[k] = v` on an insertion-ordered association
list: overwrite in place when the key is present, append otherwise. -/
def upsert (k : String) (v : WithTop ℚ) : List (String × WithTop ℚ) → List (String × WithTop ℚ)
  | [] => [(k, v)]
  | (k₀, v₀) :: rest => if k₀ = k then (k, v) :: rest else (k₀, v₀) :: upsert k v rest

/-- `create_bitrate_levels` (src/bitv/common_utils.py, lines 240-264).
`step_mb` is an integer, matching the integer call path of the source
(default `5`), for which Python's float arithmetic is exact.  The loop runs
`i = 1 .. max_steps`; `digits = len(str(max_steps * step_mb))`;
each entry is `str(int(i*step_mb)).zfill(digits) + "MB" ↦ i*step_mb*1_000_000`,
and a final `"超大文件" ↦ float('inf')` entry is appended. -/
def create_bitrate_levels (step_mb : ℤ) (max_steps : ℕ) : List (String × WithTop ℚ) :=
  let digits := (toString ((max_steps : ℤ) * step_mb)).length
  let levels := (List.range max_steps).foldl
    (fun acc i =>
      let j : ℤ := (i : ℤ) + 1
      let threshold : WithTop ℚ := (((j * step_mb * 1000000 : ℤ) : ℚ) : WithTop ℚ)
      let level_name := zfill (toString (j * step_mb)) digits ++ "MB"
      upsert level_name threshold acc)
    []
  upsert "超大文件" ⊤ levels

/-- `get_bitrate_level` (src/bitv/common_utils.py, lines 267-281): iterate
over `sorted(levels.items(), key=lambda x: x[1])` (a stable sort by
threshold, modelled with `List.mergeSort`) and return the first label whose
threshold is `≥ bitrate`; otherwise fall back to the last key in insertion
order.  (On an empty dictionary Python's fallback raises `IndexError`; the
model returns `""` there, a case no claim reaches.) -/
def get_bitrate_level (bitrate : ℚ) (levels : List (String × WithTop ℚ)) : String :=
  match (levels.mergeSort (fun a b => decide (a.2 ≤ b.2))).find?
      (fun p => decide ((bitrate : WithTop ℚ) ≤ p.2)) with
  | some p => p.1
  | none => ((levels.map Prod.fst).getLast?).getD ""

/-! ## String helpers: `str.lower`, `os.path.splitext`, the extension filter
(src/bitv/common_utils.py lines 16-19 and 284-295) -/

/-- Python `str.lower` on one character, for the ASCII range the paths of
this program use. -/
def pyLowerChar (c : Char) : Char :=
  if 65 ≤ c.toNat ∧ c.toNat ≤ 90 then Char.ofNat (c.toNat + 32) else c

/-- Python `str.lower` (ASCII range). -/
def pyLower (s : String) : String :=
  String.mk (s.data.map pyLowerChar)

/-- Index of the last character satisfying `p` (Python `str.rfind`). -/
def rfindIdx (p : Char → Bool) : List Char → Option ℕ
  | [] => none
  | c :: rest =>
    match rfindIdx p rest with
    | some i => some (i + 1)
    | none => if p c then some 0 else none

/-- `posixpath.splitext` over the character list of a path: split at the
last dot, provided it comes after the last separator and the basename up to
it is not entirely dots (so a leading-dot name such as `.bashrc` has no
extension). -/
def splitextChars (l : List Char) : List Char × List Char :=
  let sepIdx : ℤ := match rfindIdx (fun c => decide (c = '/')) l with
    | some i => (i : ℤ)
    | none => -1
  let dotIdx : ℤ := match rfindIdx (fun c => decide (c = '.')) l with
    | some i => (i : ℤ)
    | none => -1
  if sepIdx < dotIdx ∧
      ((l.drop (sepIdx + 1).toNat).take (dotIdx - sepIdx - 1).toNat).any
        (fun c => !(decide (c = '.'))) then
    (l.take dotIdx.toNat, l.drop dotIdx.toNat)
  else (l, [])

/-- `os.path.splitext` on a path string: `(root, ext)`. -/
def splitext (s : String) : String × String :=
  (String.mk (splitextChars s.data).1, String.mk (splitextChars s.data).2)

/-- `VIDEO_FILE_TYPES` (src/bitv/common_utils.py lines 16-19): the fixed
extension allow-list. -/
def VIDEO_FILE_TYPES : List String :=
  [".mp4", ".avi", ".mkv", ".mov", ".wmv", ".flv",
   ".webm", ".m4v", ".mpg", ".mpeg", ".nov"]

/-- `is_video_file` (src/bitv/common_utils.py lines 284-295):
`ext = os.path.splitext(file_path.lower())[1]; return ext in VIDEO_FILE_TYPES`. -/
def is_video_file (file_path : String) : Bool :=
  VIDEO_FILE_TYPES.contains (splitext (pyLower file_path)).2

/-- `os.path.basename` on a POSIX path string: the part after the last
separator. -/
def basenameStr (p : String) : String :=
  ((p.splitOn "/").getLast?).getD ""

/-! ## Metadata model (`VideoInfo`, src/bitv/common_utils.py lines 25-135) -/

/-- A Python value as it appears in the serialized dictionaries of this
program: a string, a float, or an int. -/
inductive PyVal where
  | pstr (s : String)
  | pnum (q : ℚ)
  | pint (n : ℤ)
  deriving DecidableEq

/-- `VideoInfo.__init__`: the stored attributes.  `filename` is derived from
`path` (see `VideoInfo.filename`), the rest are stored as given. -/
structure VideoInfo where
  path : String
  duration : ℚ
  bitrate : ℚ
  width : ℤ
  height : ℤ
  fps : ℚ
  size_bytes : ℤ
  deriving DecidableEq

/-- `self.filename = os.path.basename(path)`. -/
def VideoInfo.filename (v : VideoInfo) : String :=
  basenameStr v.path

/-- `VideoInfo.bitrate_mbps` property. -/
def VideoInfo.bitrate_mbps (v : VideoInfo) : ℚ :=
  if 0 < v.bitrate then v.bitrate / 1000000 else 0

/-- `VideoInfo.size_mb` property. -/
def VideoInfo.size_mb (v : VideoInfo) : ℚ :=
  if 0 < v.size_bytes then (v.size_bytes : ℚ) / (1024 * 1024) else 0

/-- `VideoInfo.resolution` property (exact 4K/1080p/720p match gets a named
label, otherwise bare `WxH`). -/
def VideoInfo.resolution (v : VideoInfo) : String :=
  if v.width = 3840 ∧ v.height = 2160 then
    toString v.width ++ "x" ++ toString v.height ++ " (4K UHD)"
  else if v.width = 1920 ∧ v.height = 1080 then
    toString v.width ++ "x" ++ toString v.height ++ " (1080p Full HD)"
  else if v.width = 1280 ∧ v.height = 720 then
    toString v.width ++ "x" ++ toString v.height ++ " (720p HD)"
  else
    toString v.width ++ "x" ++ toString v.height

/-- Round to the nearest integer, ties to even: the rounding Python's
builtin `round` (and float formatting) uses. -/
def roundHalfEven (x : ℚ) : ℤ :=
  let f := ⌊x⌋
  let frac := x - f
  if frac < 1/2 then f
  else if 1/2 < frac then f + 1
  else if f % 2 = 0 then f else f + 1

/-- Python `round(x, ndigits)` on an exactly-representable value. -/
def pyRound (x : ℚ) (ndigits : ℕ) : ℚ :=
  (roundHalfEven (x * (10 : ℚ) ^ ndigits) : ℚ) / (10 : ℚ) ^ ndigits

/-- Python fixed-point formatting `f"{x:.nf}"` on an exactly-representable
non-negative value (the signed-zero corner of float formatting is not
modelled; no value reaching it in this development is negative). -/
def formatFixed (x : ℚ) (n : ℕ) : String :=
  let scaled := roundHalfEven (x * (10 : ℚ) ^ n)
  let sign := if scaled < 0 then "-" else ""
  let a := scaled.natAbs
  if n = 0 then sign ++ toString a
  else sign ++ toString (a / 10 ^ n) ++ "." ++ zfill (toString (a % 10 ^ n)) n

/-- `VideoInfo.duration_formatted` property: `datetime.timedelta` splits the
duration into days and in-day seconds (microsecond precision, ties to
even), then `divmod` produces `HH:MM:SS`, with a day prefix when the
duration exceeds one day. -/
def VideoInfo.duration_formatted (v : VideoInfo) : String :=
  if v.duration ≤ 0 then "00:00:00"
  else
    let us := (roundHalfEven (v.duration * 1000000)).toNat
    let days := us / 86400000000
    let secs := us % 86400000000 / 1000000
    let hours := secs / 3600
    let remainder := secs % 3600
    let minutes := remainder / 60
    let seconds := remainder % 60
    let hms := zfill (toString hours) 2 ++ ":" ++ zfill (toString minutes) 2
      ++ ":" ++ zfill (toString seconds) 2
    if 0 < days then toString days ++ "天 " ++ hms else hms

/-- `VideoInfo.bitrate_formatted` property. -/
def VideoInfo.bitrate_formatted (v : VideoInfo) : String :=
  if v.bitrate < 1000 then formatFixed v.bitrate 2 ++ " bps"
  else if v.bitrate < 1000000 then formatFixed (v.bitrate / 1000) 2 ++ " Kbps"
  else formatFixed (v.bitrate / 1000000) 2 ++ " Mbps"

/-- `VideoInfo.to_dict` (src/bitv/common_utils.py lines 105-122): only the
display-form fields are serialized; the raw `path`, `duration`, `bitrate`,
`size_bytes` keys are commented out in the source and therefore absent. -/
def VideoInfo.to_dict (v : VideoInfo) : List (String × PyVal) :=
  [("filename", .pstr v.filename),
   ("duration_formatted", .pstr v.duration_formatted),
   ("bitrate_mbps", .pnum (pyRound v.bitrate_mbps 0)),
   ("bitrate_formatted", .pstr v.bitrate_formatted),
   ("width", .pint v.width),
   ("height", .pint v.height),
   ("resolution", .pstr v.resolution),
   ("fps", .pnum (pyRound v.fps 1)),
   ("size_mb", .pnum (pyRound v.size_mb 1))]

/-- Python `data.get(key, default)`. -/
def dictGet (d : List (String × PyVal)) (k : String) (dflt : PyVal) : PyVal :=
  match d.find? (fun p => p.1 = k) with
  | some p => p.2
  | none => dflt

/-- Extract a string; the dictionaries of this program always hold a string
under the keys read this way. -/
def PyVal.asStr : PyVal → String
  | .pstr s => s
  | _ => ""

/-- Extract a numeric value as a rational. -/
def PyVal.asNum : PyVal → ℚ
  | .pnum q => q
  | .pint n => (n : ℚ)
  | .pstr _ => 0

/-- Extract an integer value (the dictionaries of this program always hold
an int under the keys read this way; the other constructors are unreached). -/
def PyVal.asInt : PyVal → ℤ
  | .pint n => n
  | .pnum q => ⌊q⌋
  | .pstr _ => 0

/-- `VideoInfo.from_dict` (src/bitv/common_utils.py lines 124-135): reads
the raw keys `path`, `duration`, `bitrate`, `width`, `height`, `fps`,
`size_bytes`, each with a zero/empty default. -/
def VideoInfo.from_dict (data : List (String × PyVal)) : VideoInfo :=
  { path := (dictGet data "path" (.pstr "")).asStr
    duration := (dictGet data "duration" (.pnum 0)).asNum
    bitrate := (dictGet data "bitrate" (.pnum 0)).asNum
    width := (dictGet data "width" (.pint 0)).asInt
    height := (dictGet data "height" (.pint 0)).asInt
    fps := (dictGet data "fps" (.pnum 0)).asNum
    size_bytes := (dictGet data "size_bytes" (.pint 0)).asInt }

/-! ## Outcomes and statistics (src/bitv/common_utils.py lines 138-237) -/

/-- `ProcessResult.__init__` (the wall-clock `timestamp` attribute is not
modelled; no claim concerns it). -/
structure ProcessResult where
  success : Bool
  source_path : String
  target_path : String
  video_info : Option VideoInfo
  bitrate_level : String
  error_message : String
  deriving DecidableEq

/-- Append `r` to the list stored under key `k` of the insertion-ordered
grouping dictionary, creating the key at the end when absent (the
`results_by_level` update of `ProcessStats.add_result`). -/
def addToLevel (k : String) (r : ProcessResult) :
    List (String × List ProcessResult) → List (String × List ProcessResult)
  | [] => [(k, [r])]
  | (k₀, rs) :: rest =>
    if k₀ = k then (k₀, rs ++ [r]) :: rest else (k₀, rs) :: addToLevel k r rest

/-- `ProcessStats` attributes. -/
structure ProcessStats where
  successful_operations : ℕ
  failed_operations : ℕ
  total_size_bytes : ℤ
  total_duration : ℚ
  results_by_level : List (String × List ProcessResult)
  deriving DecidableEq

/-- `ProcessStats.__init__`: all counters zero, empty grouping. -/
def ProcessStats.init : ProcessStats :=
  { successful_operations := 0, failed_operations := 0, total_size_bytes := 0,
    total_duration := 0, results_by_level := [] }

/-- `ProcessStats.add_result` (src/bitv/common_utils.py lines 185-199):
success increments the success counter, accumulates size/duration only when
a `VideoInfo` is attached, and groups by tier label when one is present;
failure only increments the failure counter. -/
def ProcessStats.add_result (s : ProcessStats) (r : ProcessResult) : ProcessStats :=
  if r.success then
    let s₁ := { s with successful_operations := s.successful_operations + 1 }
    let s₂ := match r.video_info with
      | some vi =>
        { s₁ with total_size_bytes := s₁.total_size_bytes + vi.size_bytes,
                  total_duration := s₁.total_duration + vi.duration }
      | none => s₁
    if r.bitrate_level = "" then s₂
    else { s₂ with results_by_level := addToLevel r.bitrate_level r s₂.results_by_level }
  else { s with failed_operations := s.failed_operations + 1 }

/-! ## Probe adapter (src/bitv/video_analyzer.py lines 47-105) -/

/-- `VideoAnalyzer.analyze_video`, with the environment-dependent readings
passed as parameters: `path_exists` for `os.path.exists`, `openable` for
`cap.isOpened()`, the `cv2` readings `width`, `height`, `fps`,
`total_frames` (already truncated to int where the source truncates), and
`file_size` from `os.path.getsize` (non-negative).  Duration is
`total_frames / fps` when `fps > 0` else 0; bitrate is
`file_size * 8 / duration` when `duration > 0` else 0. -/
def analyze_video (video_path : String) (path_exists : Bool) (openable : Bool)
    (width height : ℤ) (fps : ℚ) (total_frames : ℤ) (file_size : ℕ) :
    Option VideoInfo :=
  if ¬ path_exists then none
  else if ¬ is_video_file video_path then none
  else if ¬ openable then none
  else
    let duration : ℚ := if 0 < fps then (total_frames : ℚ) / fps else 0
    let bitrate : ℚ := if 0 < duration then ((file_size : ℚ) * 8) / duration else 0
    some { path := video_path, duration := duration, bitrate := bitrate,
           width := width, height := height, fps := fps,
           size_bytes := (file_size : ℤ) }

/-! ## Path arithmetic (src/bitv/common_utils.py lines 298-319 and the
destination resolution of src/bitv/video_processor.py) -/

/-- A filesystem path: absolute, normalized, as its list of POSIX
components. -/
abbrev FsPath := List String

/-- `os.path.dirname` on a component list. -/
def dirname (p : FsPath) : FsPath := p.dropLast

/-- `os.path.basename` on a component list. -/
def basename (p : FsPath) : String := (p.getLast?).getD ""

/-- Render a component list back to its absolute POSIX string form (used
where the source stores paths into result records as strings). -/
def pathStr (p : FsPath) : String := "/" ++ String.intercalate "/" p

/-- Length of the common prefix of two component lists
(`os.path.commonprefix` on split paths). -/
def commonPrefixLen : FsPath → FsPath → ℕ
  | a :: as, b :: bs => if a = b then commonPrefixLen as bs + 1 else 0
  | _, _ => 0

/-- `get_relative_path` (src/bitv/common_utils.py lines 308-319), i.e.
`os.path.relpath(path, base_path)` on POSIX for absolute normalized inputs:
climb from `base_path` to the common ancestor with `..` components, then
descend into `path`; the empty relative path is `os.curdir` (`["."]`).  On
POSIX this never raises, so the `except ValueError` branches of the callers
are unreachable. -/
def get_relative_path (path base_path : FsPath) : FsPath :=
  let i := commonPrefixLen path base_path
  let rel := List.replicate (base_path.length - i) ".." ++ path.drop i
  if rel = [] then ["."] else rel

/-- Destination resolution of `VideoProcessor.classify_video`
(src/bitv/video_processor.py lines 74-93): the relative path of the file's
parent is taken against `os.path.dirname(target_dir)`; the result is
`target_dir/bitrate_level/rel_path/filename`, with a timestamp suffix
inserted before the extension when the destination already exists
(`dest_exists` is the `os.path.exists` reading). -/
def classify_dest (video_path target_dir : FsPath) (bitrate_level : String)
    (dest_exists : FsPath → Bool) (timestamp : String) : FsPath :=
  let source_dir := dirname video_path
  let rel_path := get_relative_path source_dir (dirname target_dir)
  let dest_dir := target_dir ++ [bitrate_level] ++ rel_path
  let dest_path := dest_dir ++ [basename video_path]
  if dest_exists dest_path then
    let se := splitext (basename video_path)
    dest_dir ++ [se.1 ++ "_" ++ timestamp ++ se.2]
  else dest_path

/-! ## Classification engine, Mode A batch entry
(src/bitv/video_processor.py lines 128-248) -/

/-- The dictionary `classify_videos_by_bitrate` returns.  The early
no-files return carries only `success`, `error`, `source_dir`,
`target_dir`; the full run carries the other fields (`none` models an
absent key).  `results` is modelled at the `ProcessResult` level (the
source stores `to_dict` serializations of exactly these records). -/
structure ClassifyBatchResult where
  success : Bool
  error : Option String
  source_dir : FsPath
  target_dir : FsPath
  is_move : Option Bool
  total_files : Option ℕ
  results : Option (List ProcessResult)
  stats : Option ProcessStats
  deriving DecidableEq

/-- `VideoProcessor.classify_videos_by_bitrate` modelled at the decision
level: the walker output `video_files` and the per-file outcome function
`classify1` are parameters (both are environment calls in the source);
log/report file writing is not modelled.  Statistics are reset, then, when
no video file was found, the error-shaped dictionary is returned before any
file is processed; otherwise every file is processed in order, feeding the
statistics collector.  The second component is `self.stats` after the
call. -/
def classify_videos_by_bitrate (video_files : List FsPath)
    (classify1 : FsPath → ProcessResult)
    (source_dir target_dir : FsPath) (is_move : Bool) :
    ClassifyBatchResult × ProcessStats :=
  let stats0 := ProcessStats.init
  if video_files = [] then
    ({ success := false, error := some "未找到视频文件", source_dir := source_dir,
       target_dir := target_dir, is_move := none, total_files := none,
       results := none, stats := none }, stats0)
  else
    let final := video_files.foldl
      (fun (acc : ProcessStats × List ProcessResult) vp =>
        let r := classify1 vp
        (acc.1.add_result r, acc.2 ++ [r]))
      (stats0, [])
    ({ success := true, error := none, source_dir := source_dir,
       target_dir := target_dir, is_move := some is_move,
       total_files := some video_files.length,
       results := some final.2, stats := some final.1 }, final.1)

/-! ## Classification engine, Mode B replay entry
(src/bitv/video_processor.py lines 250-426) -/

/-- One record of the `videos` array of an analysis report: `path` (the
empty list models Python's empty/missing string), `bitrate_level` (`""`
when missing), `info` (the serialized `VideoInfo` dictionary; `[]` models
the empty/missing dict). -/
structure ReportVideoRec where
  path : FsPath
  bitrate_level : String
  info : List (String × PyVal)
  deriving DecidableEq

/-- The fields of an analysis report that `classify_from_json_report`
reads: `folder_path` (`[]` models the empty string) and `videos`. -/
structure ReportData where
  folder_path : FsPath
  videos : List ReportVideoRec
  deriving DecidableEq

/-- The outcome of a replay run: the returned dictionary's decision-level
fields, the progress counter, and the file paths existing afterwards. -/
structure ReplayResult where
  success : Bool
  error : Option String
  total_files : Option ℕ
  results : Option (List ProcessResult)
  stats : Option ProcessStats
  progress : ℕ
  fs : List FsPath
  deriving DecidableEq

/-- One iteration of the replay loop of `classify_from_json_report`
(src/bitv/video_processor.py lines 321-399) over the state
`(existing files, stats, results, progress)`: a record whose path no
longer exists is skipped, advancing only the progress counter; otherwise
the tier label is reused from the record (re-derived through the probe
only when missing), the destination is resolved exactly as in
`classify_dest`, the move/copy is performed (the modelled filesystem
performs it without OS failure), and a successful outcome is recorded. -/
def classify_report_step (target_dir : FsPath)
    (probe : FsPath → Option VideoInfo) (levels : List (String × WithTop ℚ))
    (is_move : Bool) (timestamp : String)
    (st : List FsPath × ProcessStats × List ProcessResult × ℕ)
    (video : ReportVideoRec) : List FsPath × ProcessStats × List ProcessResult × ℕ :=
  let fs := st.1
  let stats := st.2.1
  let results := st.2.2.1
  let progress := st.2.2.2
  if video.path = [] ∨ ¬ video.path ∈ fs then
    (fs, stats, results, progress + 1)
  else
    let bitrate_level :=
      if video.bitrate_level = "" then
        match probe video.path with
        | some vi => get_bitrate_level vi.bitrate levels
        | none => ""
      else video.bitrate_level
    let source_dir := dirname video.path
    let rel_path := get_relative_path source_dir (dirname target_dir)
    let dest_dir := target_dir ++ [bitrate_level] ++ rel_path
    let dest0 := dest_dir ++ [basename video.path]
    let dest_path :=
      if dest0 ∈ fs then
        let se := splitext (basename video.path)
        dest_dir ++ [se.1 ++ "_" ++ timestamp ++ se.2]
      else dest0
    let fs' := if is_move then dest_path :: fs.filter (fun q => ¬ q = video.path)
               else dest_path :: fs
    let video_info := if video.info = [] then none
                      else some (VideoInfo.from_dict video.info)
    let r : ProcessResult :=
      { success := true, source_path := pathStr video.path,
        target_path := pathStr dest_path, video_info := video_info,
        bitrate_level := bitrate_level, error_message := "" }
    (fs', stats.add_result r, results ++ [r], progress + 1)

/-- `VideoProcessor.classify_from_json_report` (src/bitv/video_processor.py
lines 250-426) at the decision level: the parsed report, the current
filesystem (`fsFiles` lists existing file paths, `dir_exists` answers
`os.path.exists` for directories), the probe, the analyzer's tier table,
the move flag and the collision timestamp are inputs.  The declared source
directory must exist and the report must contain video records; then the
records are replayed in order by `classify_report_step` (statistics having
been reset) and the result dictionary is assembled.  Log/report file
writing is not modelled. -/
def classify_from_json_report (report : ReportData) (fsFiles : List FsPath)
    (dir_exists : FsPath → Bool) (probe : FsPath → Option VideoInfo)
    (levels : List (String × WithTop ℚ)) (is_move : Bool) (timestamp : String) :
    ReplayResult :=
  if report.folder_path = [] ∨ ¬ dir_exists report.folder_path then
    { success := false, error := some "找不到源目录", total_files := none,
      results := none, stats := none, progress := 0, fs := fsFiles }
  else
    let target_dir := report.folder_path
    if report.videos = [] then
      { success := false, error := some "报告中没有视频信息", total_files := none,
        results := none, stats := none, progress := 0, fs := fsFiles }
    else
      let final := report.videos.foldl
        (classify_report_step target_dir probe levels is_move timestamp)
        (fsFiles, ProcessStats.init, [], 0)
      { success := true, error := none,
        total_files := some report.videos.length,
        results := some final.2.2.1, stats := some final.2.1,
        progress := final.2.2.2, fs := final.1 }

/-! ## Theorems -/

lemma upsert_self_mem (k : String) (v : WithTop ℚ) :
    ∀ l : List (String × WithTop ℚ), (k, v) ∈ upsert k v l := by
  intro l
  induction l with
  | nil => simp [upsert]
  | cons hd tl ih =>
    obtain ⟨k₀, v₀⟩ := hd
    by_cases h : k₀ = k <;> simp [upsert, h, ih]

lemma overflow_mem_create (step : ℤ) (n : ℕ) :
    ("超大文件", (⊤ : WithTop ℚ)) ∈ create_bitrate_levels step n := by
  unfold create_bitrate_levels
  exact upsert_self_mem _ _ _

/-- On a list sorted (pairwise) by threshold, the element `find?` returns for
the predicate `bitrate ≤ threshold` has the least threshold among all
elements satisfying it. -/
lemma find?_min_threshold {b : ℚ} :
    ∀ {l : List (String × WithTop ℚ)} {x : String × WithTop ℚ},
      l.Pairwise (fun a c => a.2 ≤ c.2) →
      l.find? (fun p => decide ((b : WithTop ℚ) ≤ p.2)) = some x →
      ∀ y ∈ l, (b : WithTop ℚ) ≤ y.2 → x.2 ≤ y.2 := by
  intro l
  induction l with
  | nil => intro x _ hf; simp at hf
  | cons hd tl ih =>
    intro x hs hf y hy hby
    rcases List.pairwise_cons.mp hs with ⟨hhd, htl⟩
    by_cases hp : (b : WithTop ℚ) ≤ hd.2
    · rw [List.find?_cons_of_pos _ (by simpa using hp)] at hf
      cases hf
      rcases List.mem_cons.mp hy with hy' | hy'
      · exact le_of_eq (by rw [hy'])
      · exact hhd y hy'
    · rw [List.find?_cons_of_neg _ (by simpa using hp)] at hf
      rcases List.mem_cons.mp hy with hy' | hy'
      · exact absurd (hy' ▸ hby) hp
      · exact ih htl hf y hy' hby

/-- C1: for every bitrate `≥ 0` and every tier table built by
`create_bitrate_levels`, `get_bitrate_level` returns the label whose
threshold is the smallest threshold in the table that is `≥` the bitrate
(so a bitrate exactly equal to a bound resolves to that lower tier). -/
theorem get_bitrate_level_returns_min_bound (step : ℤ) (n : ℕ) (bitrate : ℚ)
    (hb : 0 ≤ bitrate) :
    ∃ bound : WithTop ℚ,
      (get_bitrate_level bitrate (create_bitrate_levels step n), bound)
        ∈ create_bitrate_levels step n ∧
      (bitrate : WithTop ℚ) ≤ bound ∧
      ∀ p ∈ create_bitrate_levels step n,
        (bitrate : WithTop ℚ) ≤ p.2 → bound ≤ p.2 := by
  clear hb
  set tbl := create_bitrate_levels step n with htbl
  set sorted := tbl.mergeSort (fun a b => decide (a.2 ≤ b.2)) with hsorted
  have hperm : sorted.Perm tbl := List.mergeSort_perm tbl _
  have hpair : sorted.Pairwise (fun a c : String × WithTop ℚ => a.2 ≤ c.2) := by
    have := @List.sorted_mergeSort (String × WithTop ℚ)
      (fun a b => decide (a.2 ≤ b.2))
      (fun a b c hab hbc => by
        simp only [decide_eq_true_eq] at *
        exact le_trans hab hbc)
      (fun a b => by
        simp only [Bool.or_eq_true, decide_eq_true_eq]
        exact le_total a.2 b.2)
      tbl
    exact this.imp (by simp only [decide_eq_true_eq]; exact fun h => h)
  have hmem : ("超大文件", (⊤ : WithTop ℚ)) ∈ sorted :=
    hperm.mem_iff.mpr (overflow_mem_create step n)
  have hfind : ∃ x, sorted.find? (fun p => decide ((bitrate : WithTop ℚ) ≤ p.2)) = some x := by
    rcases h : sorted.find? (fun p => decide ((bitrate : WithTop ℚ) ≤ p.2)) with _ | x
    · exfalso
      have hc := List.find?_eq_none.mp h _ hmem
      simp at hc
    · exact ⟨x, h⟩
  rcases hfind with ⟨x, hx⟩
  refine ⟨x.2, ?_, ?_, ?_⟩
  · have hret : get_bitrate_level bitrate tbl = x.1 := by
      unfold get_bitrate_level
      rw [← hsorted, hx]
    rw [hret]
    exact hperm.mem_iff.mp (List.mem_of_find?_eq_some hx)
  · simpa using List.find?_some hx
  · intro p hp hbp
    exact find?_min_threshold hpair hx p (hperm.mem_iff.mpr hp) hbp

/-- Witness for C1 at a concrete input: bitrate 7 Mbps against the default
5-by-10 table. -/
theorem get_bitrate_level_returns_min_bound_witness :
    ∃ bound : WithTop ℚ,
      (get_bitrate_level 7000000 (create_bitrate_levels 5 10), bound)
        ∈ create_bitrate_levels 5 10 ∧
      ((7000000 : ℚ) : WithTop ℚ) ≤ bound ∧
      ∀ p ∈ create_bitrate_levels 5 10,
        ((7000000 : ℚ) : WithTop ℚ) ≤ p.2 → bound ≤ p.2 :=
  get_bitrate_level_returns_min_bound 5 10 7000000 (by norm_num)

/-- C2: `create_bitrate_levels 5 10` is exactly the eleven-entry table
`05MB ↦ 5_000_000, …, 50MB ↦ 50_000_000, 超大文件 ↦ ∞`, with the i-th finite
bound equal to `i*5*1_000_000` and labels zero-padded to the width of the
largest label. -/
theorem create_bitrate_levels_default_table :
    create_bitrate_levels 5 10 =
      [("05MB", ((5000000 : ℚ) : WithTop ℚ)),
       ("10MB", ((10000000 : ℚ) : WithTop ℚ)),
       ("15MB", ((15000000 : ℚ) : WithTop ℚ)),
       ("20MB", ((20000000 : ℚ) : WithTop ℚ)),
       ("25MB", ((25000000 : ℚ) : WithTop ℚ)),
       ("30MB", ((30000000 : ℚ) : WithTop ℚ)),
       ("35MB", ((35000000 : ℚ) : WithTop ℚ)),
       ("40MB", ((40000000 : ℚ) : WithTop ℚ)),
       ("45MB", ((45000000 : ℚ) : WithTop ℚ)),
       ("50MB", ((50000000 : ℚ) : WithTop ℚ)),
       ("超大文件", (⊤ : WithTop ℚ))] := by
  decide

/-- C5 counterexample: the source performs no parameter validation.  At the
invalid inputs `step_mb = -3` (≤ 0) and `max_steps = 0` (< 1) the function
returns an ordinary table instead of failing. -/
theorem create_bitrate_levels_invalid_params_return_table :
    create_bitrate_levels (-3) 2 =
      [("-3MB", ((-3000000 : ℚ) : WithTop ℚ)),
       ("-6MB", ((-6000000 : ℚ) : WithTop ℚ)),
       ("超大文件", (⊤ : WithTop ℚ))] ∧
    create_bitrate_levels 5 0 = [("超大文件", (⊤ : WithTop ℚ))] := by
  decide

/-- C5 amended: neither `create_bitrate_levels` nor `VideoAnalyzer.__init__`
validates `step_mb`/`max_steps`; for every parameter choice a table is
returned, it always contains the infinite catch-all entry, and
`max_steps = 0` yields exactly the single catch-all entry. -/
theorem create_bitrate_levels_no_validation :
    (∀ (step : ℤ) (n : ℕ),
      ("超大文件", (⊤ : WithTop ℚ)) ∈ create_bitrate_levels step n) ∧
    (∀ step : ℤ, create_bitrate_levels step 0 = [("超大文件", (⊤ : WithTop ℚ))]) := by
  constructor
  · intro step n
    exact overflow_mem_create step n
  · intro step
    rfl

lemma toNat_ofNat_valid (n : ℕ) (h : Nat.isValidChar n) : (Char.ofNat n).toNat = n := by
  unfold Char.ofNat
  rw [dif_pos h]
  rfl

/-- `pyLowerChar` can only produce a character below code point 65 from that
same character, since lowering moves uppercase letters into `[97, 122]`. -/
lemma pyLowerChar_eq_low (c d : Char) (hd : d.toNat < 65) :
    (pyLowerChar c = d) ↔ (c = d) := by
  unfold pyLowerChar
  by_cases h : 65 ≤ c.toNat ∧ c.toNat ≤ 90
  · rw [if_pos h]
    constructor
    · intro he
      exfalso
      have h1 : (Char.ofNat (c.toNat + 32)).toNat = c.toNat + 32 :=
        toNat_ofNat_valid _ (Or.inl (by omega))
      have h2 := congrArg Char.toNat he
      rw [h1] at h2
      omega
    · intro he
      exfalso
      have h2 := congrArg Char.toNat he
      omega
  · rw [if_neg h]

lemma rfindIdx_map (f : Char → Char) (p : Char → Bool) :
    ∀ l : List Char, rfindIdx p (l.map f) = rfindIdx (fun c => p (f c)) l := by
  intro l
  induction l with
  | nil => rfl
  | cons c rest ih => simp only [List.map_cons, rfindIdx, ih]

/-- `splitext` commutes with ASCII lowering: lowering moves no dot and no
separator, so splitting before or after lowering gives the same pieces. -/
lemma splitextChars_map_pyLower (l : List Char) :
    splitextChars (l.map pyLowerChar) =
      ((splitextChars l).1.map pyLowerChar, (splitextChars l).2.map pyLowerChar) := by
  have hslash : (fun c => decide (pyLowerChar c = '/')) = (fun c => decide (c = '/')) := by
    funext c
    simp [pyLowerChar_eq_low c '/' (by decide)]
  have hdot : (fun c => decide (pyLowerChar c = '.')) = (fun c => decide (c = '.')) := by
    funext c
    simp [pyLowerChar_eq_low c '.' (by decide)]
  have hany : ∀ m : List Char,
      (m.map pyLowerChar).any (fun c => !(decide (c = '.')))
        = m.any (fun c => !(decide (c = '.'))) := by
    intro m
    rw [List.any_map]
    congr 1
    funext c
    simp [Function.comp, pyLowerChar_eq_low c '.' (by decide)]
  unfold splitextChars
  rw [rfindIdx_map, rfindIdx_map, hslash, hdot]
  simp only [← List.map_take, ← List.map_drop, hany]
  split <;> simp

/-- C10: the video-file filter matches extensions case-insensitively:
`is_video_file` accepts a path exactly when the lowercased extension of the
path is in the fixed allow-list `VIDEO_FILE_TYPES`
(mp4, avi, mkv, mov, wmv, flv, webm, m4v, mpg, mpeg, nov); in particular
an uppercase variant such as `.MP4` is accepted. -/
theorem is_video_file_iff_lower_ext :
    (∀ p : String, is_video_file p = true ↔ pyLower (splitext p).2 ∈ VIDEO_FILE_TYPES) ∧
    is_video_file "/videos/CLIP.MP4" = true := by
  constructor
  · intro p
    have h : (splitext (pyLower p)).2 = pyLower (splitext p).2 := by
      show String.mk (splitextChars (p.data.map pyLowerChar)).2
        = String.mk ((splitextChars p.data).2.map pyLowerChar)
      rw [splitextChars_map_pyLower]
    unfold is_video_file
    rw [h]
    simp [List.contains]
  · decide

/-- Witness for C10 at the concrete mixed-case path. -/
theorem is_video_file_iff_lower_ext_witness :
    pyLower (splitext "/videos/CLIP.MP4").2 ∈ VIDEO_FILE_TYPES :=
  (is_video_file_iff_lower_ext.1 "/videos/CLIP.MP4").mp (by decide)

/-- C9: every `VideoInfo` the probe step produces satisfies: bitrate equals
`size_bytes*8/duration` when the duration is positive, bitrate is 0
whenever the duration is 0 (the guard prevents any division by zero), and
the bitrate is never negative. -/
theorem analyze_video_bitrate_safe (video_path : String)
    (path_exists openable : Bool) (width height : ℤ) (fps : ℚ)
    (total_frames : ℤ) (file_size : ℕ) (v : VideoInfo)
    (h : analyze_video video_path path_exists openable width height fps
        total_frames file_size = some v) :
    (v.duration = 0 → v.bitrate = 0) ∧
    (0 < v.duration → v.bitrate = ((file_size : ℚ) * 8) / v.duration) ∧
    0 ≤ v.bitrate := by
  simp only [analyze_video] at h
  split at h
  · exact absurd h (by simp)
  · split at h
    · exact absurd h (by simp)
    · split at h
      · exact absurd h (by simp)
      · simp only [Option.some.injEq] at h
        subst h
        refine ⟨?_, ?_, ?_⟩
        · intro h0
          simp only at h0 ⊢
          rw [h0] at *
          simp
        · intro hpos
          simp only at hpos ⊢
          rw [if_pos hpos]
        · simp only
          by_cases hpos : 0 < (if 0 < fps then (total_frames : ℚ) / fps else 0)
          · rw [if_pos hpos]
            exact div_nonneg (by positivity) hpos.le
          · rw [if_neg hpos]

/-- Witness for C9: a 30 fps, 3000-frame, 1 MB probe yields duration 100 s
and bitrate 80 kbit/s, satisfying all three guarantees. -/
theorem analyze_video_bitrate_safe_witness :
    ((⟨"/v/a.mp4", 100, 80000, 1920, 1080, 30, 1000000⟩ : VideoInfo).duration = 0 →
      (⟨"/v/a.mp4", 100, 80000, 1920, 1080, 30, 1000000⟩ : VideoInfo).bitrate = 0) ∧
    (0 < (⟨"/v/a.mp4", 100, 80000, 1920, 1080, 30, 1000000⟩ : VideoInfo).duration →
      (⟨"/v/a.mp4", 100, 80000, 1920, 1080, 30, 1000000⟩ : VideoInfo).bitrate
        = (((1000000 : ℕ) : ℚ) * 8)
          / (⟨"/v/a.mp4", 100, 80000, 1920, 1080, 30, 1000000⟩ : VideoInfo).duration) ∧
    0 ≤ (⟨"/v/a.mp4", 100, 80000, 1920, 1080, 30, 1000000⟩ : VideoInfo).bitrate :=
  analyze_video_bitrate_safe "/v/a.mp4" true true 1920 1080 30 3000 1000000
    ⟨"/v/a.mp4", 100, 80000, 1920, 1080, 30, 1000000⟩ (by
      have hv : is_video_file "/v/a.mp4" = true := by decide
      norm_num [analyze_video, hv])

lemma add_result_count (s : ProcessStats) (r : ProcessResult) :
    (s.add_result r).successful_operations + (s.add_result r).failed_operations
      = s.successful_operations + s.failed_operations + 1 := by
  unfold ProcessStats.add_result
  rcases r with ⟨succ, sp, tp, vi, bl, em⟩
  cases succ
  · simp
    omega
  · cases vi <;> by_cases hbl : bl = "" <;> simp [hbl] <;> omega

lemma add_result_size (s : ProcessStats) (r : ProcessResult) :
    (s.add_result r).total_size_bytes
      = s.total_size_bytes + (match (if r.success then r.video_info else none) with
          | some vi => vi.size_bytes
          | none => 0) := by
  unfold ProcessStats.add_result
  rcases r with ⟨succ, sp, tp, vi, bl, em⟩
  cases succ
  · simp
  · cases vi <;> by_cases hbl : bl = "" <;> simp [hbl]

lemma add_result_duration (s : ProcessStats) (r : ProcessResult) :
    (s.add_result r).total_duration
      = s.total_duration + (match (if r.success then r.video_info else none) with
          | some vi => vi.duration
          | none => 0) := by
  unfold ProcessStats.add_result
  rcases r with ⟨succ, sp, tp, vi, bl, em⟩
  cases succ
  · simp
  · cases vi <;> by_cases hbl : bl = "" <;> simp [hbl]

lemma foldl_add_result (rs : List ProcessResult) :
    ∀ s : ProcessStats,
      ((rs.foldl ProcessStats.add_result s).successful_operations
        + (rs.foldl ProcessStats.add_result s).failed_operations
        = s.successful_operations + s.failed_operations + rs.length) ∧
      ((rs.foldl ProcessStats.add_result s).total_size_bytes
        = s.total_size_bytes + ((rs.filterMap
            (fun r => if r.success then r.video_info else none)).map
              VideoInfo.size_bytes).sum) ∧
      ((rs.foldl ProcessStats.add_result s).total_duration
        = s.total_duration + ((rs.filterMap
            (fun r => if r.success then r.video_info else none)).map
              VideoInfo.duration).sum) := by
  induction rs with
  | nil => intro s; simp
  | cons r rest ih =>
    intro s
    rcases ih (s.add_result r) with ⟨h1, h2, h3⟩
    refine ⟨?_, ?_, ?_⟩ <;> simp only [List.foldl_cons]
    · rw [h1, add_result_count]
      simp only [List.length_cons]
      omega
    · rw [h2, add_result_size]
      rcases hfr : (if r.success then r.video_info else none) with _ | vi <;>
        simp [List.filterMap_cons, hfr] <;> ring
    · rw [h3, add_result_duration]
      rcases hfr : (if r.success then r.video_info else none) with _ | vi <;>
        simp [List.filterMap_cons, hfr] <;> ring

/-- C8: for every sequence of outcomes ingested through
`ProcessStats.add_result` starting from a fresh collector, the success and
failure counters sum to the number of outcomes, and the cumulative size and
duration are exactly the sums over successful outcomes carrying a
`VideoInfo`. -/
theorem process_stats_invariant (results : List ProcessResult) :
    ((results.foldl ProcessStats.add_result ProcessStats.init).successful_operations
      + (results.foldl ProcessStats.add_result ProcessStats.init).failed_operations
      = results.length) ∧
    ((results.foldl ProcessStats.add_result ProcessStats.init).total_size_bytes
      = ((results.filterMap (fun r => if r.success then r.video_info else none)).map
          VideoInfo.size_bytes).sum) ∧
    ((results.foldl ProcessStats.add_result ProcessStats.init).total_duration
      = ((results.filterMap (fun r => if r.success then r.video_info else none)).map
          VideoInfo.duration).sum) := by
  rcases foldl_add_result results ProcessStats.init with ⟨h1, h2, h3⟩
  refine ⟨?_, ?_, ?_⟩
  · rw [h1]; simp [ProcessStats.init]
  · rw [h2]; simp [ProcessStats.init]
  · rw [h3]; simp [ProcessStats.init]

lemma roundHalfEven_intCast (n : ℤ) : roundHalfEven ((n : ℚ)) = n := by
  unfold roundHalfEven
  norm_num

lemma pyRound_eval (x : ℚ) (d : ℕ) (n : ℤ) (hx : x * (10 : ℚ) ^ d = (n : ℚ)) :
    pyRound x d = (n : ℚ) / (10 : ℚ) ^ d := by
  unfold pyRound
  rw [hx, roundHalfEven_intCast]

/-- C4 counterexample: for the video with raw bitrate 5 Mbps and size 1 MiB,
serializing with `to_dict` and reconstructing with `from_dict` zeroes
`bitrate_mbps` and `size_mb` (their persisted values were 5 and 1.0),
because `from_dict` reads the raw keys `bitrate`/`size_bytes` that
`to_dict` omits; so the round trip does not preserve them even at the
persisted precision. -/
theorem videoinfo_roundtrip_counterexample :
    pyRound (VideoInfo.bitrate_mbps (VideoInfo.from_dict (VideoInfo.to_dict
      (⟨"/a/b.mp4", 100, 5000000, 1920, 1080, 30, 1048576⟩ : VideoInfo)))) 0 = 0 ∧
    pyRound (VideoInfo.bitrate_mbps
      (⟨"/a/b.mp4", 100, 5000000, 1920, 1080, 30, 1048576⟩ : VideoInfo)) 0 = 5 ∧
    pyRound (VideoInfo.size_mb (VideoInfo.from_dict (VideoInfo.to_dict
      (⟨"/a/b.mp4", 100, 5000000, 1920, 1080, 30, 1048576⟩ : VideoInfo)))) 1 = 0 ∧
    pyRound (VideoInfo.size_mb
      (⟨"/a/b.mp4", 100, 5000000, 1920, 1080, 30, 1048576⟩ : VideoInfo)) 1 = 1 := by
  have hrt : VideoInfo.from_dict (VideoInfo.to_dict
      (⟨"/a/b.mp4", 100, 5000000, 1920, 1080, 30, 1048576⟩ : VideoInfo))
      = ⟨"", 0, 0, 1920, 1080, pyRound 30 1, 0⟩ := rfl
  rw [hrt]
  refine ⟨?_, ?_, ?_, ?_⟩
  · have h1 : VideoInfo.bitrate_mbps (⟨"", 0, 0, 1920, 1080, pyRound 30 1, 0⟩ : VideoInfo)
        = ((0 : ℤ) : ℚ) := by
      norm_num [VideoInfo.bitrate_mbps]
    rw [h1, pyRound_eval ((0 : ℤ) : ℚ) 0 0 (by norm_num)]
    norm_num
  · have h1 : VideoInfo.bitrate_mbps
        (⟨"/a/b.mp4", 100, 5000000, 1920, 1080, 30, 1048576⟩ : VideoInfo)
        = ((5 : ℤ) : ℚ) := by
      norm_num [VideoInfo.bitrate_mbps]
    rw [h1, pyRound_eval ((5 : ℤ) : ℚ) 0 5 (by norm_num)]
    norm_num
  · have h1 : VideoInfo.size_mb (⟨"", 0, 0, 1920, 1080, pyRound 30 1, 0⟩ : VideoInfo)
        = ((0 : ℤ) : ℚ) := by
      norm_num [VideoInfo.size_mb]
    rw [h1, pyRound_eval ((0 : ℤ) : ℚ) 1 0 (by norm_num)]
    norm_num
  · have h1 : VideoInfo.size_mb
        (⟨"/a/b.mp4", 100, 5000000, 1920, 1080, 30, 1048576⟩ : VideoInfo)
        = ((1 : ℤ) : ℚ) := by
      norm_num [VideoInfo.size_mb]
    rw [h1, pyRound_eval ((1 : ℤ) : ℚ) 1 10 (by norm_num)]
    norm_num

/-- C4 amended: the `to_dict`/`from_dict` round trip preserves `resolution`
(and the underlying width and height); `bitrate_mbps` and `size_mb` are not
preserved: the reconstructed video always has bitrate 0 and size 0, because
`from_dict` reads the raw `bitrate`/`size_bytes` keys that `to_dict` never
writes. -/
theorem videoinfo_roundtrip_amended (v : VideoInfo) :
    (VideoInfo.from_dict (VideoInfo.to_dict v)).resolution = v.resolution ∧
    (VideoInfo.from_dict (VideoInfo.to_dict v)).width = v.width ∧
    (VideoInfo.from_dict (VideoInfo.to_dict v)).height = v.height ∧
    (VideoInfo.from_dict (VideoInfo.to_dict v)).bitrate_mbps = 0 ∧
    (VideoInfo.from_dict (VideoInfo.to_dict v)).size_mb = 0 := by
  have h : VideoInfo.from_dict (VideoInfo.to_dict v)
      = ⟨"", 0, 0, v.width, v.height, pyRound v.fps 1, 0⟩ := rfl
  rw [h]
  exact ⟨rfl, rfl, rfl, rfl, rfl⟩

lemma commonPrefixLen_append (s t : FsPath) : commonPrefixLen (s ++ t) s = s.length := by
  induction s with
  | nil => cases t <;> simp [commonPrefixLen]
  | cons a as ih => simp [commonPrefixLen, ih]

lemma get_relative_path_append (s t : FsPath) (ht : ¬ t = []) :
    get_relative_path (s ++ t) s = t := by
  unfold get_relative_path
  rw [commonPrefixLen_append]
  simp [List.drop_left, ht]

/-- C3 counterexample: for the file `/a/s/sub/f.mp4` found under source
directory `/a/s` with target directory `/a/t`, the claim's destination
`targetDir/tier/<parent relative to sourceDir>/<filename>` would be
`/a/t/05MB/sub/f.mp4`; the code instead resolves the relative path against
`dirname(targetDir) = /a` and produces `/a/t/05MB/s/sub/f.mp4`. -/
theorem classify_dest_counterexample :
    classify_dest ["a", "s", "sub", "f.mp4"] ["a", "t"] "05MB" (fun _ => false) "TS"
      = ["a", "t", "05MB", "s", "sub", "f.mp4"] ∧
    ¬ classify_dest ["a", "s", "sub", "f.mp4"] ["a", "t"] "05MB" (fun _ => false) "TS"
      = ["a", "t", "05MB", "sub", "f.mp4"] := by
  constructor
  · rfl
  · intro hcontra
    simp [classify_dest, get_relative_path, commonPrefixLen, dirname, basename] at hcontra

/-- C3 amended: `classify_video` places the file at
`targetDir/<tierLabel>/<relative path of the file's parent directory with
respect to the PARENT of targetDir>/<filename>`: whenever the file's parent
is strictly below `dirname(targetDir)`, the directory structure below that
parent is preserved verbatim.  (On POSIX `os.path.relpath` never raises, so
the flattening fallback of the `except ValueError` branch is unreachable;
non-nested inputs receive `..` components instead.) -/
theorem classify_dest_relative_to_target_parent (video_path target_dir : FsPath)
    (label ts : String) (dest_exists : FsPath → Bool) (t : FsPath)
    (ht : ¬ t = [])
    (hnest : dirname video_path = dirname target_dir ++ t)
    (hcol : dest_exists (target_dir ++ [label] ++ t ++ [basename video_path]) = false) :
    classify_dest video_path target_dir label dest_exists ts
      = target_dir ++ [label] ++ t ++ [basename video_path] := by
  simp only [classify_dest]
  rw [hnest, get_relative_path_append _ _ ht, hcol]
  simp

/-- Witness for C3's amended statement at the counterexample's input. -/
theorem classify_dest_relative_to_target_parent_witness :
    classify_dest ["a", "s", "sub", "f.mp4"] ["a", "t"] "05MB" (fun _ => false) "TS"
      = ["a", "t"] ++ ["05MB"] ++ ["s", "sub"]
        ++ [basename ["a", "s", "sub", "f.mp4"]] :=
  classify_dest_relative_to_target_parent ["a", "s", "sub", "f.mp4"] ["a", "t"]
    "05MB" "TS" (fun _ => false) ["s", "sub"] (by decide) rfl rfl

/-- C6 counterexample: when the walker finds no video files, the returned
dictionary is flagged exactly like the fatal conditions — `success = False`
together with a non-empty `error` message — rather than a distinguished
non-error result. -/
theorem classify_videos_no_files_counterexample :
    (classify_videos_by_bitrate [] (fun _ =>
        ⟨false, "", "", none, "", ""⟩) ["a", "s"] ["a", "t"] false).1.success = false ∧
    (classify_videos_by_bitrate [] (fun _ =>
        ⟨false, "", "", none, "", ""⟩) ["a", "s"] ["a", "t"] false).1.error
      = some "未找到视频文件" := by
  exact ⟨rfl, rfl⟩

/-- C6 amended: when no video file is found, `classify_videos_by_bitrate`
returns early with the error-shaped dictionary
`{success: False, error: "未找到视频文件"}` carrying only the two directories —
no file is processed, no outcome is recorded, no results list or statistics
entry is created, and the statistics collector stays at its reset state. -/
theorem classify_videos_no_files_terminal (classify1 : FsPath → ProcessResult)
    (source_dir target_dir : FsPath) (is_move : Bool) :
    classify_videos_by_bitrate [] classify1 source_dir target_dir is_move
      = ({ success := false, error := some "未找到视频文件",
           source_dir := source_dir, target_dir := target_dir, is_move := none,
           total_files := none, results := none, stats := none },
         ProcessStats.init) := rfl

/-- When every record's path is absent from the filesystem, the replay loop
only advances the progress counter. -/
lemma replay_skip_all (target_dir : FsPath) (probe : FsPath → Option VideoInfo)
    (levels : List (String × WithTop ℚ)) (is_move : Bool) (ts : String) :
    ∀ (videos : List ReportVideoRec) (fs : List FsPath) (stats : ProcessStats)
      (res : List ProcessResult) (k : ℕ),
      (∀ rcd ∈ videos, rcd.path ∉ fs) →
      videos.foldl (classify_report_step target_dir probe levels is_move ts)
        (fs, stats, res, k) = (fs, stats, res, k + videos.length) := by
  intro videos
  induction videos with
  | nil =>
    intro fs stats res k _
    simp
  | cons vd rest ih =>
    intro fs stats res k h
    have hvd : vd.path ∉ fs := h vd (List.mem_cons_self _ _)
    have hstep : classify_report_step target_dir probe levels is_move ts
        (fs, stats, res, k) vd = (fs, stats, res, k + 1) := by
      simp only [classify_report_step]
      rw [if_pos (Or.inr hvd)]
    rw [List.foldl_cons, hstep,
      ih fs stats res (k + 1) (fun rcd hr => h rcd (List.mem_cons_of_mem _ hr))]
    simp only [List.length_cons]
    have harith : k + 1 + rest.length = k + (rest.length + 1) := by omega
    rw [harith]

/-- C7: in `classify_from_json_report` every record whose path no longer
exists is skipped with only the progress counter advancing; consequently,
replaying a (non-empty) report whose files have all been moved away
completes successfully with zero outcomes, zeroed statistics, an unchanged
filesystem, and full progress — and running it a second time returns the
very same result (idempotence of replay on already-moved inputs). -/
theorem classify_from_json_report_skips_missing (report : ReportData)
    (fsFiles : List FsPath) (dir_exists : FsPath → Bool)
    (probe : FsPath → Option VideoInfo) (levels : List (String × WithTop ℚ))
    (is_move : Bool) (ts : String)
    (hdir₁ : ¬ report.folder_path = [])
    (hdir₂ : dir_exists report.folder_path = true)
    (hvids : ¬ report.videos = [])
    (hmoved : ∀ rcd ∈ report.videos, rcd.path ∉ fsFiles) :
    (classify_from_json_report report fsFiles dir_exists probe levels is_move ts).success
      = true ∧
    (classify_from_json_report report fsFiles dir_exists probe levels is_move ts).error
      = none ∧
    (classify_from_json_report report fsFiles dir_exists probe levels is_move ts).results
      = some [] ∧
    (classify_from_json_report report fsFiles dir_exists probe levels is_move ts).stats
      = some ProcessStats.init ∧
    (classify_from_json_report report fsFiles dir_exists probe levels is_move ts).progress
      = report.videos.length ∧
    (classify_from_json_report report fsFiles dir_exists probe levels is_move ts).fs
      = fsFiles ∧
    classify_from_json_report report
        (classify_from_json_report report fsFiles dir_exists probe levels is_move ts).fs
        dir_exists probe levels is_move ts
      = classify_from_json_report report fsFiles dir_exists probe levels is_move ts := by
  have hrun : classify_from_json_report report fsFiles dir_exists probe levels is_move ts
      = { success := true, error := none, total_files := some report.videos.length,
          results := some [], stats := some ProcessStats.init,
          progress := report.videos.length, fs := fsFiles } := by
    unfold classify_from_json_report
    rw [if_neg (by simp [hdir₁, hdir₂]), if_neg hvids,
      replay_skip_all _ _ _ _ _ report.videos fsFiles _ _ _ hmoved]
    simp
  rw [hrun]
  exact ⟨rfl, rfl, rfl, rfl, rfl, rfl, hrun⟩

/-- Witness for C7: a one-record report over source directory `/d` whose
file `/d/x.mp4` has already been moved (the filesystem list is empty). -/
theorem classify_from_json_report_skips_missing_witness :
    (classify_from_json_report ⟨["d"], [⟨["d", "x.mp4"], "05MB", []⟩]⟩ []
        (fun _ => true) (fun _ => none) [] true "T").success = true ∧
    (classify_from_json_report ⟨["d"], [⟨["d", "x.mp4"], "05MB", []⟩]⟩ []
        (fun _ => true) (fun _ => none) [] true "T").error = none ∧
    (classify_from_json_report ⟨["d"], [⟨["d", "x.mp4"], "05MB", []⟩]⟩ []
        (fun _ => true) (fun _ => none) [] true "T").results = some [] ∧
    (classify_from_json_report ⟨["d"], [⟨["d", "x.mp4"], "05MB", []⟩]⟩ []
        (fun _ => true) (fun _ => none) [] true "T").stats = some ProcessStats.init ∧
    (classify_from_json_report ⟨["d"], [⟨["d", "x.mp4"], "05MB", []⟩]⟩ []
        (fun _ => true) (fun _ => none) [] true "T").progress
      = (⟨["d"], [⟨["d", "x.mp4"], "05MB", []⟩]⟩ : ReportData).videos.length ∧
    (classify_from_json_report ⟨["d"], [⟨["d", "x.mp4"], "05MB", []⟩]⟩ []
        (fun _ => true) (fun _ => none) [] true "T").fs = [] ∧
    classify_from_json_report ⟨["d"], [⟨["d", "x.mp4"], "05MB", []⟩]⟩
        (classify_from_json_report ⟨["d"], [⟨["d", "x.mp4"], "05MB", []⟩]⟩ []
          (fun _ => true) (fun _ => none) [] true "T").fs
        (fun _ => true) (fun _ => none) [] true "T"
      = classify_from_json_report ⟨["d"], [⟨["d", "x.mp4"], "05MB", []⟩]⟩ []
          (fun _ => true) (fun _ => none) [] true "T" :=
  classify_from_json_report_skips_missing ⟨["d"], [⟨["d", "x.mp4"], "05MB", []⟩]⟩ []
    (fun _ => true) (fun _ => none) [] true "T"
    (by simp) rfl (by simp) (by simp)
